import Mathlib

/-!
# smb-csi-driver: the node server

A shallow embedding of `nodeserver/node_server.go`.

The node server owns no mutable state of its own: the struct `smbNodeServer`
holds two collaborators, the command-execution shim (`execshim.Exec`) and the
operating-system shim (`osshim.Os`), and `NodePublishVolume` also calls the
package function `os.MkdirAll` and writes to the standard output streams.
Every such call is a side effect on the outside world.  The embedding makes the
world explicit:

* a `Call` is one invocation of a collaborator (or one line written to an
  output stream), with the arguments the source passes;
* an `Event` is a call together with the error it returned (`none` is Go's
  `nil` error, `some msg` an error whose `Error()` is `msg`);
* a `World` is the history of events so far together with an oracle that,
  given the history and the next call, says which error that call returns.

A handler is a function from a request and a world to a result and the world
after the call.  Theorems quantify over every oracle, so they hold for every
behaviour of the collaborators, the fakes of the unit tests included.
-/

namespace SmbCsiDriver

/-! ## gRPC status errors -/

/-- The gRPC status codes (`google.golang.org/grpc/codes`) in their numeric order. -/
inductive Code where
  | OK
  | Canceled
  | Unknown
  | InvalidArgument
  | DeadlineExceeded
  | NotFound
  | AlreadyExists
  | PermissionDenied
  | ResourceExhausted
  | FailedPrecondition
  | Aborted
  | OutOfRange
  | Unimplemented
  | Internal
  | Unavailable
  | DataLoss
  | Unauthenticated
  deriving DecidableEq, Repr

/-- The name `Code.String()` prints for a code. -/
def Code.String : Code → String
  | .OK => "OK"
  | .Canceled => "Canceled"
  | .Unknown => "Unknown"
  | .InvalidArgument => "InvalidArgument"
  | .DeadlineExceeded => "DeadlineExceeded"
  | .NotFound => "NotFound"
  | .AlreadyExists => "AlreadyExists"
  | .PermissionDenied => "PermissionDenied"
  | .ResourceExhausted => "ResourceExhausted"
  | .FailedPrecondition => "FailedPrecondition"
  | .Aborted => "Aborted"
  | .OutOfRange => "OutOfRange"
  | .Unimplemented => "Unimplemented"
  | .Internal => "Internal"
  | .Unavailable => "Unavailable"
  | .DataLoss => "DataLoss"
  | .Unauthenticated => "Unauthenticated"

/-- The error value built by `status.Error(code, desc)`. -/
structure Status where
  code : Code
  desc : String
  deriving DecidableEq, Repr

/-- The text of `err.Error()` for a status error: `rpc error: code = <code> desc = <desc>`. -/
def Status.Error (s : Status) : String :=
  "rpc error: code = " ++ s.code.String ++ " desc = " ++ s.desc

/-! ## Requests and responses -/

/-- A Go `map[string]string` given by its entries. -/
abbrev StringMap := List (String × String)

/-- Indexing `m[k]` of a Go map: the value of the first entry with key `k`, and the
empty string when the map has no such key. -/
def StringMap.index (m : StringMap) (k : String) : String :=
  (m.lookup k).getD ""

/-- The part of `csi.VolumeCapability` a publish request can carry: the mount flags of
its mount access type (`GetMount().GetMountFlags()`, empty when there is none). -/
structure VolumeCapability where
  MountFlags : List String := []
  deriving DecidableEq, Repr

/-- The fields of `csi.NodePublishVolumeRequest`.  `VolumeCapability` is a pointer in
the source: `none` is `nil`. -/
structure NodePublishVolumeRequest where
  VolumeId : String := ""
  TargetPath : String := ""
  VolumeCapability : Option VolumeCapability := none
  Readonly : Bool := false
  Secrets : StringMap := []
  VolumeContext : StringMap := []
  deriving DecidableEq, Repr

/-- The getter `r.GetVolumeContext()`. -/
def NodePublishVolumeRequest.GetVolumeContext (r : NodePublishVolumeRequest) : StringMap :=
  r.VolumeContext

/-- The message `csi.NodePublishVolumeResponse`, which has no fields. -/
structure NodePublishVolumeResponse where
  deriving DecidableEq, Repr

/-- The fields of `csi.NodeUnpublishVolumeRequest`. -/
structure NodeUnpublishVolumeRequest where
  VolumeId : String := ""
  TargetPath : String := ""
  deriving DecidableEq, Repr

/-- The message `csi.NodeUnpublishVolumeResponse`, which has no fields. -/
structure NodeUnpublishVolumeResponse where
  deriving DecidableEq, Repr

/-! ## The outside world -/

/-- One invocation of a collaborator.  A command handle is the position in the history
of the `Command` call that created it. -/
inductive Call where
  /-- The call `os.MkdirAll(path, perm)`. -/
  | MkdirAll (path : String) (perm : Nat)
  /-- The call `execshim.Command(name, args...)`. -/
  | Command (name : String) (args : List String)
  /-- The call `cmdshim.Start()` on the handle `cmd`. -/
  | Start (cmd : Nat)
  /-- The call `cmdshim.Wait()` on the handle `cmd`. -/
  | Wait (cmd : Nat)
  /-- The call `osshim.Remove(path)`. -/
  | Remove (path : String)
  /-- The builtin `println(s)`. -/
  | println (s : String)
  /-- The call `fmt.Println(s)`. -/
  | fmtPrintln (s : String)
  /-- A line handed to the standard logger (`log.Printf`, `log.Print`). -/
  | logPrint (s : String)
  deriving DecidableEq, Repr

/-- A call and the error it returned. -/
structure Event where
  call : Call
  err : Option String
  deriving DecidableEq, Repr

/-- The history of calls and the oracle that answers the next one. -/
structure World where
  oracle : List Event → Call → Option String
  trace : List Event

/-- Invoke a collaborator that returns an error value: ask the oracle, record the event. -/
def World.invoke (w : World) (c : Call) : Option String × World :=
  let e := w.oracle w.trace c
  (e, { w with trace := w.trace ++ [⟨c, e⟩] })

/-- Write a line to an output stream: recorded, and nothing is returned. -/
def World.emit (w : World) (c : Call) : World :=
  { w with trace := w.trace ++ [⟨c, none⟩] }

/-- The call `execshim.Command(name, args...)`: recorded, and the handle returned is
the position of this call in the history. -/
def World.Command (w : World) (name : String) (args : List String) : Nat × World :=
  (w.trace.length, { w with trace := w.trace ++ [⟨.Command name args, none⟩] })

/-! ## The node server -/

/-- The format `errorFmt` applied to one string: `fmt.Sprintf(errorFmt, s)`. -/
def errorFmt (s : String) : String :=
  "Error: a required property [" ++ s ++ "] was not provided"

/-- The permission bits `os.ModePerm` (octal 777). -/
def ModePerm : Nat := 0o777

/-- The method `NodePublishVolume` of `smbNodeServer`. -/
def NodePublishVolume (r : NodePublishVolumeRequest) (w : World) :
    Except Status NodePublishVolumeResponse × World :=
  match r.VolumeCapability with
  | none => (.error ⟨.InvalidArgument, errorFmt "VolumeCapability"⟩, w)
  | some _ =>
    let (err, w) := w.invoke (.MkdirAll r.TargetPath ModePerm)
    let w := match err with
      | some e => w.emit (.println e)
      | none => w
    let share := r.GetVolumeContext.index "share"
    let username := r.GetVolumeContext.index "username"
    let password := r.GetVolumeContext.index "password"
    let w := w.emit (.logPrint ("local target path: " ++ r.TargetPath))
    let mountOptions := "username=" ++ username ++ ",password=" ++ password
    let (cmdshim, w) := w.Command "mount" ["-t", "cifs", "-o", mountOptions, share, r.TargetPath]
    let (err, w) := w.invoke (.Start cmdshim)
    match err with
    | some e => (.error ⟨.Internal, e⟩, w)
    | none =>
      let w := w.emit (.fmtPrintln ("started mount to " ++ share))
      let (err, w) := w.invoke (.Wait cmdshim)
      match err with
      | some e => (.error ⟨.Internal, e⟩, w)
      | none =>
        let w := w.emit (.fmtPrintln ("finished mount to " ++ share))
        (.ok {}, w)

/-- The method `NodeUnpublishVolume` of `smbNodeServer`. -/
def NodeUnpublishVolume (r : NodeUnpublishVolumeRequest) (w : World) :
    Except Status NodeUnpublishVolumeResponse × World :=
  if r.TargetPath = "" then
    (.error ⟨.InvalidArgument, errorFmt "TargetPath"⟩, w)
  else
    let w := w.emit (.logPrint "about to remove dir")
    let (cmdshim, w) := w.Command "umount" [r.TargetPath]
    let (err, w) := w.invoke (.Start cmdshim)
    match err with
    | some e => (.error ⟨.Internal, e⟩, w)
    | none =>
      let w := w.emit (.logPrint "started umount")
      let (err, w) := w.invoke (.Wait cmdshim)
      match err with
      | some e => (.error ⟨.Internal, e⟩, w)
      | none =>
        let w := w.emit (.logPrint "finished umount")
        let (err, w) := w.invoke (.Remove r.TargetPath)
        match err with
        | some e => (.error ⟨.Internal, e⟩, w)
        | none =>
          let w := w.emit (.logPrint "removed dir")
          (.ok {}, w)

/-! ## Reading a history -/

/-- The command an event created, if it is a `Command` call: its name and argument list. -/
def Event.command? : Event → Option (String × List String)
  | ⟨.Command name args, _⟩ => some (name, args)
  | _ => none

/-- The commands created in a history, in order: name and argument list of each. -/
def commands (es : List Event) : List (String × List String) :=
  es.filterMap Event.command?

/-- The events a handler added: the history of `w2` after the first `|w1.trace|` events. -/
def World.since (w1 w2 : World) : List Event :=
  w2.trace.drop w1.trace.length

/-- An oracle under which every collaborator call returns `nil`. -/
def okOracle : List Event → Call → Option String :=
  fun _ _ => none

/-- A world with an empty history in which no call fails. -/
def freshWorld : World :=
  ⟨okOracle, []⟩

/-- The request of the unit tests: capability present, no mount flags, the share in the
volume context and the credentials in the secrets. -/
def testRequest : NodePublishVolumeRequest :=
  { VolumeCapability := some {}
    TargetPath := "/tmp/target_path"
    VolumeContext := [("share", "//server/export")]
    Secrets := [("username", "user1"), ("password", "pass1")] }

/-- The request of the unit tests with the given mount flags in its capability. -/
def flagRequest (flags : List String) : NodePublishVolumeRequest :=
  { testRequest with VolumeCapability := some { MountFlags := flags } }

/-- The request of the unit tests with the given mount flags, and the credentials
repeated in the volume context, where the source reads them. -/
def contextRequest (flags : List String) : NodePublishVolumeRequest :=
  { flagRequest flags with
    VolumeContext :=
      [("share", "//server/export"), ("username", "user1"), ("password", "pass1")] }

/-- The request of the unit tests for another share at the same target path. -/
def otherShareRequest : NodePublishVolumeRequest :=
  { testRequest with VolumeContext := [("share", "//server/other")] }

/-- The unpublish request of the unit tests. -/
def testUnpublishRequest : NodeUnpublishVolumeRequest :=
  { TargetPath := "/tmp/target_path" }

/-- An oracle under which the first `Start` of a history fails with `cmd-failed` and
every other call returns `nil`. -/
def failFirstStart : List Event → Call → Option String
  | tr, .Start _ =>
    if tr.any (fun ev => match ev.call with | .Start _ => true | _ => false) then none
    else some "cmd-failed"
  | _, _ => none

/-- An oracle under which every `Wait` fails with `cmd-failed` and every other call
returns `nil`. -/
def failWait : List Event → Call → Option String
  | _, .Wait _ => some "cmd-failed"
  | _, _ => none

/-- An oracle under which every `Remove` fails with `remove-failed` and every other call
returns `nil`. -/
def failRemove : List Event → Call → Option String
  | _, .Remove _ => some "remove-failed"
  | _, _ => none

/-- The option strings of a history: the fourth argument (`args[3]`) of each command
that has one. -/
def optionStrings (es : List Event) : List String :=
  (commands es).filterMap (fun c => c.2[3]?)

/-- Go's `strings.Contains(s, sub)`: some suffix of `s` starts with `sub`. -/
def stringsContains (s sub : String) : Bool :=
  s.data.tails.any (fun t => sub.data.isPrefixOf t)

/-- The argument list `NodePublishVolume` passes to `execshim.Command` after the name
`mount` (source lines 49 to 57): the credentials and the share are read from the volume
context. -/
def mountArgs (r : NodePublishVolumeRequest) : List String :=
  ["-t", "cifs", "-o",
    "username=" ++ r.GetVolumeContext.index "username" ++ ",password=" ++
      r.GetVolumeContext.index "password",
    r.GetVolumeContext.index "share", r.TargetPath]

/-! ## The points at which a handler asks the oracle

The answer of a collaborator is the value of the oracle at the history in which the
handler makes the call.  The definitions below name these histories and answers for the
calls of `NodePublishVolume` and `NodeUnpublishVolume`, so that "the `Start` of the mount
command returns `e`" is a statement on the oracle and not on what the handler did. -/

/-- The events `NodePublishVolume` adds before it starts the mount command (source lines
45 to 57): `os.MkdirAll` with its answer, the line printed when that failed, the log
line, and the creation of the mount command. -/
def publishPrefix (r : NodePublishVolumeRequest) (w : World) : List Event :=
  let err := w.oracle w.trace (.MkdirAll r.TargetPath ModePerm)
  [⟨.MkdirAll r.TargetPath ModePerm, err⟩] ++
    (match err with
      | some e => [⟨.println e, none⟩]
      | none => []) ++
    [⟨.logPrint ("local target path: " ++ r.TargetPath), none⟩,
      ⟨.Command "mount" (mountArgs r), none⟩]

/-- The handle of the mount command `NodePublishVolume` creates in the world `w`: the
position of the last event of `publishPrefix` in the history. -/
def publishHandle (r : NodePublishVolumeRequest) (w : World) : Nat :=
  w.trace.length + (publishPrefix r w).length - 1

/-- What `cmdshim.Start()` returns to `NodePublishVolume` in the world `w` (source line
58): the answer of the oracle once the mount command is created. -/
def publishStartErr (r : NodePublishVolumeRequest) (w : World) : Option String :=
  w.oracle (w.trace ++ publishPrefix r w) (.Start (publishHandle r w))

/-- The events `NodePublishVolume` adds between a `Start` that returned `nil` and its
`Wait` (source lines 58 to 62). -/
def publishStarted (r : NodePublishVolumeRequest) (w : World) : List Event :=
  [⟨.Start (publishHandle r w), none⟩,
    ⟨.fmtPrintln ("started mount to " ++ r.GetVolumeContext.index "share"), none⟩]

/-- What `cmdshim.Wait()` returns to `NodePublishVolume` in the world `w` after a `Start`
that returned `nil` (source line 64). -/
def publishWaitErr (r : NodePublishVolumeRequest) (w : World) : Option String :=
  w.oracle (w.trace ++ publishPrefix r w ++ publishStarted r w) (.Wait (publishHandle r w))

/-- The events `NodeUnpublishVolume` adds before it starts the unmount command (source
lines 78 to 80): the log line and the creation of the command. -/
def unpublishPrefix (r : NodeUnpublishVolumeRequest) : List Event :=
  [⟨.logPrint "about to remove dir", none⟩, ⟨.Command "umount" [r.TargetPath], none⟩]

/-- The handle of the unmount command `NodeUnpublishVolume` creates in the world `w`. -/
def unpublishHandle (w : World) : Nat :=
  w.trace.length + 1

/-- What `cmdshim.Start()` returns to `NodeUnpublishVolume` in the world `w` (source line
81). -/
def unpublishStartErr (r : NodeUnpublishVolumeRequest) (w : World) : Option String :=
  w.oracle (w.trace ++ unpublishPrefix r) (.Start (unpublishHandle w))

/-- The events `NodeUnpublishVolume` adds between a `Start` that returned `nil` and its
`Wait` (source lines 81 to 86). -/
def unpublishStarted (w : World) : List Event :=
  [⟨.Start (unpublishHandle w), none⟩, ⟨.logPrint "started umount", none⟩]

/-- What `cmdshim.Wait()` returns to `NodeUnpublishVolume` in the world `w` after a
`Start` that returned `nil` (source line 88). -/
def unpublishWaitErr (r : NodeUnpublishVolumeRequest) (w : World) : Option String :=
  w.oracle (w.trace ++ unpublishPrefix r ++ unpublishStarted w) (.Wait (unpublishHandle w))

/-- The events `NodeUnpublishVolume` adds between a `Wait` that returned `nil` and its
`Remove` (source lines 88 to 92). -/
def unpublishWaited (w : World) : List Event :=
  [⟨.Wait (unpublishHandle w), none⟩, ⟨.logPrint "finished umount", none⟩]

/-- What `osshim.Remove(r.TargetPath)` returns to `NodeUnpublishVolume` in the world `w`
after an unmount that succeeded (source line 94). -/
def unpublishRemoveErr (r : NodeUnpublishVolumeRequest) (w : World) : Option String :=
  w.oracle (w.trace ++ unpublishPrefix r ++ unpublishStarted w ++ unpublishWaited w)
    (.Remove r.TargetPath)

/-- An oracle under which the first `Wait` of a history fails with `cmd-failed` and
every other call returns `nil`. -/
def failFirstWait : List Event → Call → Option String
  | tr, .Wait _ =>
    if tr.any (fun ev => match ev.call with | .Wait _ => true | _ => false) then none
    else some "cmd-failed"
  | _, _ => none

/-- A server that has already written a log line, with the given oracle. -/
def busyWorld (oracle : List Event → Call → Option String) : World :=
  ⟨oracle, [⟨.logPrint "an earlier call", none⟩]⟩

/-! ## Concurrent calls

The handlers share no memory: `smbNodeServer` has no mutable field and a handler keeps
everything else in local variables.  Two calls that run at the same time can therefore
affect each other only through the collaborators, and the calls to the collaborators
are the points at which they interleave.  `Prog` presents a handler one such call at a
time, and `runSchedule` runs a pool of handlers in any order of such steps. -/

/-- A handler seen one collaborator call at a time: the value it returns, or the call it
makes next and how it goes on from the answer. -/
inductive Prog (α : Type) where
  /-- The handler has returned `a`. -/
  | done (a : α)
  /-- A call that returns an error value. -/
  | invoke (c : Call) (k : Option String → Prog α)
  /-- A line written to an output stream. -/
  | emit (c : Call) (k : Prog α)
  /-- The call `execshim.Command(name, args...)`, which returns a handle. -/
  | command (name : String) (args : List String) (k : Nat → Prog α)

/-- Let a handler make its next call in a world. -/
def Prog.step {α : Type} : Prog α → World → Prog α × World
  | .done a, w => (.done a, w)
  | .invoke c k, w => (k (w.invoke c).1, (w.invoke c).2)
  | .emit c k, w => (k, w.emit c)
  | .command name args k, w => (k (w.Command name args).1, (w.Command name args).2)

/-- Run a handler on its own, from its first call to its return. -/
def Prog.run {α : Type} : Prog α → World → α × World
  | .done a, w => (a, w)
  | .invoke c k, w => (k (w.invoke c).1).run (w.invoke c).2
  | .emit c k, w => k.run (w.emit c)
  | .command name args k, w => (k (w.Command name args).1).run (w.Command name args).2

/-- The value a handler has returned, if it has returned. -/
def Prog.result? {α : Type} : Prog α → Option α
  | .done a => some a
  | _ => none

/-- The method `NodePublishVolume` of `smbNodeServer`, one collaborator call at a time. -/
def NodePublishVolumeProg (r : NodePublishVolumeRequest) :
    Prog (Except Status NodePublishVolumeResponse) :=
  match r.VolumeCapability with
  | none => .done (.error ⟨.InvalidArgument, errorFmt "VolumeCapability"⟩)
  | some _ =>
    .invoke (.MkdirAll r.TargetPath ModePerm) fun err =>
    let share := r.GetVolumeContext.index "share"
    let username := r.GetVolumeContext.index "username"
    let password := r.GetVolumeContext.index "password"
    let mountOptions := "username=" ++ username ++ ",password=" ++ password
    let afterMkdir : Prog (Except Status NodePublishVolumeResponse) :=
      .emit (.logPrint ("local target path: " ++ r.TargetPath)) <|
      .command "mount" ["-t", "cifs", "-o", mountOptions, share, r.TargetPath] fun cmdshim =>
      .invoke (.Start cmdshim) fun err =>
      match err with
      | some e => .done (.error ⟨.Internal, e⟩)
      | none =>
        .emit (.fmtPrintln ("started mount to " ++ share)) <|
        .invoke (.Wait cmdshim) fun err =>
        match err with
        | some e => .done (.error ⟨.Internal, e⟩)
        | none =>
          .emit (.fmtPrintln ("finished mount to " ++ share)) <|
          .done (.ok {})
    match err with
    | some e => .emit (.println e) afterMkdir
    | none => afterMkdir

/-- Let thread `i` of a pool of handlers make its next call.  A thread that has returned
stays as it is, and so does the pool when it has no thread `i`. -/
def stepThread {α : Type} (i : Nat) (pool : List (Prog α)) (w : World) :
    List (Prog α) × World :=
  match pool[i]? with
  | none => (pool, w)
  | some p => (pool.set i (p.step w).1, (p.step w).2)

/-- Run a pool of handlers under a schedule, the list of the threads in the order in
which they make their calls. -/
def runSchedule {α : Type} : List Nat → List (Prog α) → World → List (Prog α) × World
  | [], pool, w => (pool, w)
  | i :: sched, pool, w => runSchedule sched (stepThread i pool w).1 (stepThread i pool w).2

/-- The number of commands a handler still creates when its calls return `nil`. -/
def Prog.pending {α : Type} : Prog α → Nat
  | .done _ => 0
  | .invoke _ k => (k none).pending
  | .emit _ k => k.pending
  | .command _ _ k => (k 0).pending + 1

/-- `Pending cmd n p`: whatever the collaborators answer, the handler `p` still creates
exactly `n` commands, each of them `cmd`, and its other calls create none. -/
inductive Pending {α : Type} (cmd : String × List String) : Nat → Prog α → Prop where
  | done (a : α) : Pending cmd 0 (.done a)
  | invoke (c : Call) (k : Option String → Prog α) (n : Nat)
      (hc : ∀ e, Event.command? ⟨c, e⟩ = none) (hk : ∀ e, Pending cmd n (k e)) :
      Pending cmd n (.invoke c k)
  | emit (c : Call) (k : Prog α) (n : Nat)
      (hc : Event.command? ⟨c, none⟩ = none) (hk : Pending cmd n k) :
      Pending cmd n (.emit c k)
  | command (k : Nat → Prog α) (n : Nat) (hk : ∀ h, Pending cmd n (k h)) :
      Pending cmd (n + 1) (.command cmd.1 cmd.2 k)

/-- `Succeeds p`: when every call from now on returns `nil`, the handler `p` returns the
empty success response. -/
inductive Succeeds : Prog (Except Status NodePublishVolumeResponse) → Prop where
  | done : Succeeds (.done (.ok {}))
  | invoke (c : Call) (k : Option String → Prog (Except Status NodePublishVolumeResponse))
      (hk : Succeeds (k none)) : Succeeds (.invoke c k)
  | emit (c : Call) (k : Prog (Except Status NodePublishVolumeResponse))
      (hk : Succeeds k) : Succeeds (.emit c k)
  | command (name : String) (args : List String)
      (k : Nat → Prog (Except Status NodePublishVolumeResponse))
      (hk : ∀ h, Succeeds (k h)) : Succeeds (.command name args k)

/-- A schedule for two threads that alternates between them, seven calls each. -/
def alternating : List Nat :=
  [0, 1, 0, 1, 0, 1, 0, 1, 0, 1, 0, 1, 0, 1]

/-! ## Lemmas on histories -/

theorem commands_append (xs ys : List Event) :
    commands (xs ++ ys) = commands xs ++ commands ys := by
  simp [commands]

theorem since_append (w1 w2 : World) (new : List Event) (h : w2.trace = w1.trace ++ new) :
    w1.since w2 = new := by
  simp [World.since, h]

/-- Every call of `NodePublishVolume` extends the history and keeps the oracle. -/
theorem publish_extends (r : NodePublishVolumeRequest) (w : World) :
    (NodePublishVolume r w).2.oracle = w.oracle ∧
      (NodePublishVolume r w).2.trace = w.trace ++ w.since (NodePublishVolume r w).2 := by
  unfold NodePublishVolume World.since
  cases r.VolumeCapability with
  | none => simp
  | some c =>
    simp only [World.invoke, World.emit, World.Command]
    split <;> split <;> (try split) <;> simp

/-- With a capability present a call creates exactly one command, the mount command. -/
theorem publish_commands (r : NodePublishVolumeRequest) (w : World) (c : VolumeCapability)
    (h : r.VolumeCapability = some c) :
    commands (w.since (NodePublishVolume r w).2) = [("mount", mountArgs r)] := by
  unfold NodePublishVolume World.since
  rw [h]
  simp only [World.invoke, World.emit, World.Command]
  split <;> split <;> (try split) <;>
    simp_all [commands, mountArgs, Event.command?]

/-- The handle on which a call starts the command is the position of the mount command
it created. -/
theorem publish_handle (r : NodePublishVolumeRequest) (w : World) (c : VolumeCapability)
    (h : r.VolumeCapability = some c) (k : Nat) (e : Option String)
    (hk : ⟨.Start k, e⟩ ∈ w.since (NodePublishVolume r w).2) :
    (NodePublishVolume r w).2.trace[k]? = some ⟨.Command "mount" (mountArgs r), none⟩ := by
  revert hk
  unfold NodePublishVolume World.since
  rw [h]
  simp only [World.invoke, World.emit, World.Command]
  split <;> split <;> (try split) <;>
    simp_all [mountArgs] <;> intros <;>
    rw [List.getElem_append_right (by simp)] <;> simp

/-- Under an oracle that never fails, a call with a capability succeeds. -/
theorem publish_ok (r : NodePublishVolumeRequest) (w : World) (c : VolumeCapability)
    (h : r.VolumeCapability = some c) (ho : w.oracle = okOracle) :
    (NodePublishVolume r w).1 = .ok {} := by
  unfold NodePublishVolume
  rw [h]
  simp [World.invoke, World.emit, World.Command, ho, okOracle]

/-- Events added by two handlers in a row are the events of the first followed by the
events of the second. -/
theorem since_trans (w0 w1 w2 : World) (n1 n2 : List Event)
    (h1 : w1.trace = w0.trace ++ n1) (h2 : w2.trace = w1.trace ++ n2) :
    w0.since w2 = n1 ++ n2 := by
  simp [World.since, h1, h2]

/-- With a target path given, a call of `NodeUnpublishVolume` creates exactly one
command: `umount` with the target path as its only argument. -/
theorem unpublish_commands (r : NodeUnpublishVolumeRequest) (w : World)
    (h : r.TargetPath ≠ "") :
    commands (w.since (NodeUnpublishVolume r w).2) = [("umount", [r.TargetPath])] := by
  unfold NodeUnpublishVolume World.since
  rw [if_neg h]
  simp only [World.invoke, World.emit, World.Command]
  split <;> (try split) <;> (try split) <;>
    simp_all [commands, Event.command?]

/-- How the result of a call follows from what `Start` and `Wait` returned: an error of
either is returned as an Internal status with the same message, a `Wait` that returned
`nil` means success, and there is no `Wait` after a `Start` that failed. -/
theorem publish_result (r : NodePublishVolumeRequest) (w : World) (c : VolumeCapability)
    (h : r.VolumeCapability = some c) (k : Nat) :
    (∀ e, ⟨.Start k, some e⟩ ∈ w.since (NodePublishVolume r w).2 →
        (NodePublishVolume r w).1 = .error ⟨.Internal, e⟩ ∧
          ∀ k2 e2, ⟨.Wait k2, e2⟩ ∉ w.since (NodePublishVolume r w).2) ∧
      (∀ e, ⟨.Wait k, some e⟩ ∈ w.since (NodePublishVolume r w).2 →
        (NodePublishVolume r w).1 = .error ⟨.Internal, e⟩) ∧
      (⟨.Wait k, none⟩ ∈ w.since (NodePublishVolume r w).2 →
        (NodePublishVolume r w).1 = .ok {}) := by
  unfold NodePublishVolume World.since
  rw [h]
  simp only [World.invoke, World.emit, World.Command]
  split <;> split <;> (try split) <;> simp_all

/-- How the result of an unpublish call follows from what `Start`, `Wait` and `Remove`
returned: an error of any of them is returned as an Internal status with the same
message; there is no `Wait` after a `Start` that failed, and no `Remove` after a `Start`
or a `Wait` that failed. -/
theorem unpublish_result (r : NodeUnpublishVolumeRequest) (w : World)
    (h : r.TargetPath ≠ "") (k : Nat) (e : String) :
    (⟨.Start k, some e⟩ ∈ w.since (NodeUnpublishVolume r w).2 →
        (NodeUnpublishVolume r w).1 = .error ⟨.Internal, e⟩ ∧
          (∀ k2 e2, ⟨.Wait k2, e2⟩ ∉ w.since (NodeUnpublishVolume r w).2) ∧
          ∀ p e2, ⟨.Remove p, e2⟩ ∉ w.since (NodeUnpublishVolume r w).2) ∧
      (⟨.Wait k, some e⟩ ∈ w.since (NodeUnpublishVolume r w).2 →
        (NodeUnpublishVolume r w).1 = .error ⟨.Internal, e⟩ ∧
          ∀ p e2, ⟨.Remove p, e2⟩ ∉ w.since (NodeUnpublishVolume r w).2) ∧
      (∀ p, ⟨.Remove p, some e⟩ ∈ w.since (NodeUnpublishVolume r w).2 →
        (NodeUnpublishVolume r w).1 = .error ⟨.Internal, e⟩ ∧ p = r.TargetPath) := by
  unfold NodeUnpublishVolume World.since
  rw [if_neg h]
  simp only [World.invoke, World.emit, World.Command]
  split <;> (try split) <;> (try split) <;> simp_all

/-- The handle on which an unpublish call starts the command is the position of the
`umount` command it created. -/
theorem unpublish_handle (r : NodeUnpublishVolumeRequest) (w : World)
    (h : r.TargetPath ≠ "") (k : Nat) (e : Option String)
    (hk : ⟨.Start k, e⟩ ∈ w.since (NodeUnpublishVolume r w).2) :
    (NodeUnpublishVolume r w).2.trace[k]? = some ⟨.Command "umount" [r.TargetPath], none⟩ := by
  revert hk
  unfold NodeUnpublishVolume World.since
  rw [if_neg h]
  simp only [World.invoke, World.emit, World.Command]
  split <;> (try split) <;> (try split) <;>
    simp_all <;> intros <;>
    rw [List.getElem_append_right (by simp)] <;> simp

/-- The whole behaviour of `NodePublishVolume` with a capability present, from the
answers of the oracle: the result, and the events added to the history. -/
theorem publish_behaviour (r : NodePublishVolumeRequest) (w : World) (c : VolumeCapability)
    (h : r.VolumeCapability = some c) :
    (∀ e, publishStartErr r w = some e →
        (NodePublishVolume r w).1 = .error ⟨.Internal, e⟩ ∧
          (NodePublishVolume r w).2.trace =
            w.trace ++ (publishPrefix r w ++ [⟨.Start (publishHandle r w), some e⟩])) ∧
      (∀ e, publishStartErr r w = none → publishWaitErr r w = some e →
        (NodePublishVolume r w).1 = .error ⟨.Internal, e⟩ ∧
          (NodePublishVolume r w).2.trace =
            w.trace ++ (publishPrefix r w ++ publishStarted r w ++
              [⟨.Wait (publishHandle r w), some e⟩])) ∧
      (publishStartErr r w = none → publishWaitErr r w = none →
        (NodePublishVolume r w).1 = .ok {} ∧
          (NodePublishVolume r w).2.trace =
            w.trace ++ (publishPrefix r w ++ publishStarted r w ++
              [⟨.Wait (publishHandle r w), none⟩,
                ⟨.fmtPrintln ("finished mount to " ++ r.GetVolumeContext.index "share"),
                  none⟩])) := by
  unfold NodePublishVolume publishWaitErr publishStartErr publishStarted publishHandle
    publishPrefix
  rw [h]
  simp only [World.invoke, World.emit, World.Command]
  cases hm : w.oracle w.trace (.MkdirAll r.TargetPath ModePerm) <;>
    simp [mountArgs, Nat.add_assoc] <;>
    refine ⟨?_, ?_, ?_⟩ <;> intros <;> simp_all

/-- The whole behaviour of `NodeUnpublishVolume` with a target path given, from the
answers of the oracle: the result, and the events added to the history. -/
theorem unpublish_behaviour (r : NodeUnpublishVolumeRequest) (w : World)
    (h : r.TargetPath ≠ "") :
    (∀ e, unpublishStartErr r w = some e →
        (NodeUnpublishVolume r w).1 = .error ⟨.Internal, e⟩ ∧
          (NodeUnpublishVolume r w).2.trace =
            w.trace ++ (unpublishPrefix r ++ [⟨.Start (unpublishHandle w), some e⟩])) ∧
      (∀ e, unpublishStartErr r w = none → unpublishWaitErr r w = some e →
        (NodeUnpublishVolume r w).1 = .error ⟨.Internal, e⟩ ∧
          (NodeUnpublishVolume r w).2.trace =
            w.trace ++ (unpublishPrefix r ++ unpublishStarted w ++
              [⟨.Wait (unpublishHandle w), some e⟩])) ∧
      (∀ e, unpublishStartErr r w = none → unpublishWaitErr r w = none →
        unpublishRemoveErr r w = some e →
        (NodeUnpublishVolume r w).1 = .error ⟨.Internal, e⟩ ∧
          (NodeUnpublishVolume r w).2.trace =
            w.trace ++ (unpublishPrefix r ++ unpublishStarted w ++ unpublishWaited w ++
              [⟨.Remove r.TargetPath, some e⟩])) ∧
      (unpublishStartErr r w = none → unpublishWaitErr r w = none →
        unpublishRemoveErr r w = none →
        (NodeUnpublishVolume r w).1 = .ok {} ∧
          (NodeUnpublishVolume r w).2.trace =
            w.trace ++ (unpublishPrefix r ++ unpublishStarted w ++ unpublishWaited w ++
              [⟨.Remove r.TargetPath, none⟩, ⟨.logPrint "removed dir", none⟩])) := by
  unfold NodeUnpublishVolume unpublishRemoveErr unpublishWaited unpublishWaitErr
    unpublishStarted unpublishStartErr unpublishHandle unpublishPrefix
  rw [if_neg h]
  simp only [World.invoke, World.emit, World.Command]
  simp [Nat.add_assoc]
  refine ⟨?_, ?_, ?_, ?_⟩ <;> intros <;> simp_all

/-! ## Lemmas on concurrent calls -/

/-- Running the step-by-step handler on its own is the method `NodePublishVolume`. -/
theorem run_NodePublishVolumeProg (r : NodePublishVolumeRequest) (w : World) :
    (NodePublishVolumeProg r).run w = NodePublishVolume r w := by
  unfold NodePublishVolumeProg NodePublishVolume
  cases r.VolumeCapability with
  | none => rfl
  | some c =>
    simp only [Prog.run, World.invoke, World.emit, World.Command]
    split <;> simp only [Prog.run, World.invoke, World.emit, World.Command] <;>
      split <;> simp only [Prog.run, World.invoke, World.emit, World.Command] <;>
      split <;> simp_all [Prog.run, World.emit]

/-- With a capability present the handler creates one command on every path, the mount
command of the request. -/
theorem pending_NodePublishVolumeProg (r : NodePublishVolumeRequest) (c : VolumeCapability)
    (h : r.VolumeCapability = some c) :
    Pending ("mount", mountArgs r) 1 (NodePublishVolumeProg r) := by
  unfold NodePublishVolumeProg
  rw [h]
  refine .invoke _ _ _ (fun _ => rfl) ?_
  intro err
  cases err <;>
    repeat' first
      | exact .done _
      | refine .emit _ _ _ rfl ?_
      | (refine .invoke _ _ _ (fun _ => rfl) ?_; intro e; cases e)
      | (refine @Pending.command _ ("mount", mountArgs r) _ _ ?_; intro n)

/-- With a capability present the handler returns the empty success response when every
call returns `nil`. -/
theorem succeeds_NodePublishVolumeProg (r : NodePublishVolumeRequest) (c : VolumeCapability)
    (h : r.VolumeCapability = some c) : Succeeds (NodePublishVolumeProg r) := by
  unfold NodePublishVolumeProg
  rw [h]
  repeat' first
    | exact .done
    | refine .emit _ _ ?_
    | refine .invoke _ _ ?_
    | (refine .command _ _ _ ?_; intro n)

/-- The count `pending` of a handler is the number of commands it creates on every path. -/
theorem Pending.count_eq {α : Type} {cmd : String × List String} {n : Nat} {p : Prog α}
    (h : Pending cmd n p) : p.pending = n := by
  induction h with
  | done a => rfl
  | invoke c k n _ _ ih => exact ih none
  | emit c k n _ _ ih => exact ih
  | command k n _ ih => simp [Prog.pending, ih 0]

/-- One call of a handler: it keeps the oracle, extends the history, and the commands it
adds are those by which its count of pending commands drops. -/
theorem Pending.step_commands {α : Type} {cmd : String × List String} {n : Nat} {p : Prog α}
    (h : Pending cmd n p) (w : World) :
    (p.step w).2.oracle = w.oracle ∧
      ∃ n2 new, Pending cmd n2 (p.step w).1 ∧ (p.step w).2.trace = w.trace ++ new ∧
        n2 ≤ n ∧ commands new = List.replicate (n - n2) cmd := by
  cases h with
  | done a => exact ⟨rfl, 0, [], .done a, by simp [Prog.step], le_refl _, rfl⟩
  | invoke c k n hc hk =>
    exact ⟨rfl, n, _, hk _, rfl, le_refl _, by simp [commands, hc]⟩
  | emit c k n hc hk =>
    exact ⟨rfl, n, _, hk, rfl, le_refl _, by simp [commands, hc]⟩
  | command k n hk =>
    exact ⟨rfl, n, _, hk _, rfl, Nat.le_succ n, by simp [commands, Event.command?]⟩

/-- One call of a handler under an oracle that never fails keeps it on the way to the
empty success response. -/
theorem Succeeds.step_ok {p : Prog (Except Status NodePublishVolumeResponse)} (h : Succeeds p)
    (w : World) (ho : w.oracle = okOracle) : Succeeds (p.step w).1 := by
  cases h with
  | done => exact .done
  | invoke c k hk => simpa [Prog.step, World.invoke, ho, okOracle] using hk
  | emit c k hk => exact hk
  | command name args k hk => exact hk _

/-- A handler on the way to the empty success response that has returned has returned it. -/
theorem Succeeds.result_ok {p : Prog (Except Status NodePublishVolumeResponse)} (h : Succeeds p)
    (hd : p.result?.isSome) : p.result? = some (.ok {}) := by
  cases h with
  | done => rfl
  | invoke c k hk => simp [Prog.result?] at hd
  | emit c k hk => simp [Prog.result?] at hd
  | command name args k hk => simp [Prog.result?] at hd

/-- A handler that has returned creates no further command. -/
theorem pending_of_result {α : Type} (p : Prog α) (hd : p.result?.isSome) : p.pending = 0 := by
  cases p with
  | done a => rfl
  | invoke c k => simp [Prog.result?] at hd
  | emit c k => simp [Prog.result?] at hd
  | command name args k => simp [Prog.result?] at hd

/-- Replacing thread `i` of a pool changes the sum of the pending counts by the counts of
the old and the new thread. -/
theorem sum_pending_set {α : Type} (pool : List (Prog α)) (i : Nat) (p q : Prog α)
    (h : pool[i]? = some p) :
    ((pool.set i q).map Prog.pending).sum + p.pending =
      (pool.map Prog.pending).sum + q.pending := by
  induction pool generalizing i with
  | nil => simp at h
  | cons x xs ih =>
    cases i with
    | zero =>
      simp only [List.getElem?_cons_zero, Option.some.injEq] at h
      subst h
      simp only [List.set_cons_zero, List.map_cons, List.sum_cons]
      omega
    | succ i =>
      simp only [List.getElem?_cons_succ] at h
      have := ih i h
      simp only [List.set_cons_succ, List.map_cons, List.sum_cons]
      omega

/-- One call of a handler keeps the oracle. -/
theorem step_oracle {α : Type} (p : Prog α) (w : World) : (p.step w).2.oracle = w.oracle := by
  cases p <;> rfl

/-- One step of a pool: the oracle and the number of threads stay, every thread still
creates only the command `cmd`, and the commands added to the history are those by
which the sum of the pending counts drops. -/
theorem stepThread_commands {α : Type} (cmd : String × List String) (i : Nat)
    (pool : List (Prog α)) (w : World) (hp : ∀ p ∈ pool, ∃ n, Pending cmd n p) :
    (stepThread i pool w).2.oracle = w.oracle ∧
      (stepThread i pool w).1.length = pool.length ∧
      (∀ p ∈ (stepThread i pool w).1, ∃ n, Pending cmd n p) ∧
      ∃ new, (stepThread i pool w).2.trace = w.trace ++ new ∧
        ((stepThread i pool w).1.map Prog.pending).sum ≤ (pool.map Prog.pending).sum ∧
        commands new =
          List.replicate
            ((pool.map Prog.pending).sum - ((stepThread i pool w).1.map Prog.pending).sum)
            cmd := by
  unfold stepThread
  cases hi : pool[i]? with
  | none => exact ⟨rfl, rfl, hp, [], by simp, le_refl _, by simp [commands]⟩
  | some p =>
    obtain ⟨n, hn⟩ := hp p (List.getElem?_mem hi)
    obtain ⟨ho, n2, new, hn2, ht, hle, hc⟩ := hn.step_commands w
    have hsum := sum_pending_set pool i p (p.step w).1 hi
    rw [hn.count_eq, hn2.count_eq] at hsum
    refine ⟨ho, by simp, ?_, new, ht, by simp only []; omega, ?_⟩
    · intro q hq
      rcases List.mem_or_eq_of_mem_set hq with hq | rfl
      · exact hp q hq
      · exact ⟨n2, hn2⟩
    · rw [hc]
      congr 1
      simp only []
      omega

/-- A pool run under a schedule: the oracle and the number of threads stay, and the
commands added to the history are those by which the sum of the pending counts drops. -/
theorem runSchedule_commands {α : Type} (cmd : String × List String) (sched : List Nat)
    (pool : List (Prog α)) (w : World) (hp : ∀ p ∈ pool, ∃ n, Pending cmd n p) :
    (runSchedule sched pool w).2.oracle = w.oracle ∧
      (runSchedule sched pool w).1.length = pool.length ∧
      ∃ new, (runSchedule sched pool w).2.trace = w.trace ++ new ∧
        ((runSchedule sched pool w).1.map Prog.pending).sum ≤ (pool.map Prog.pending).sum ∧
        commands new =
          List.replicate
            ((pool.map Prog.pending).sum -
              ((runSchedule sched pool w).1.map Prog.pending).sum)
            cmd := by
  induction sched generalizing pool w with
  | nil => exact ⟨rfl, rfl, [], by simp [runSchedule], le_refl _, by simp [runSchedule, commands]⟩
  | cons i sched ih =>
    obtain ⟨ho, hl, hp2, new1, ht1, hle1, hc1⟩ := stepThread_commands cmd i pool w hp
    obtain ⟨ho2, hl2, new2, ht2, hle2, hc2⟩ :=
      ih (stepThread i pool w).1 (stepThread i pool w).2 hp2
    simp only [runSchedule]
    refine ⟨ho2.trans ho, hl2.trans hl, new1 ++ new2, ?_, le_trans hle2 hle1, ?_⟩
    · rw [ht2, ht1, List.append_assoc]
    · rw [commands_append, hc1, hc2, ← List.replicate_add]
      congr 1
      omega

/-- A pool run under a schedule and an oracle that never fails: threads on the way to
the empty success response stay on it. -/
theorem runSchedule_succeeds (sched : List Nat)
    (pool : List (Prog (Except Status NodePublishVolumeResponse))) (w : World)
    (ho : w.oracle = okOracle) (hp : ∀ p ∈ pool, Succeeds p) :
    ∀ p ∈ (runSchedule sched pool w).1, Succeeds p := by
  induction sched generalizing pool w with
  | nil => exact hp
  | cons i sched ih =>
    simp only [runSchedule]
    refine ih _ _ ?_ ?_
    · unfold stepThread
      cases pool[i]? with
      | none => exact ho
      | some p => exact (step_oracle p w).trans ho
    · unfold stepThread
      cases hi : pool[i]? with
      | none => exact hp
      | some p =>
        intro q hq
        rcases List.mem_or_eq_of_mem_set hq with hq | rfl
        · exact hp q hq
        · exact (hp p (List.getElem?_mem hi)).step_ok w ho

/-! ## The claims -/

/-- C1, the code at the failing input.  For the publish request of the unit tests
(capability present, no mount flags, share `//server/export` in the volume context,
`username=user1` and `password=pass1` in the secrets) a call creates, in every world,
exactly one command, `mount -t cifs -o username=,password= //server/export
/tmp/target_path`: the option string carries empty credentials and not the
`username=user1,password=pass1` of the secrets, because the source reads `username` and
`password` from the volume context.  When nothing fails the call returns the empty
success response. -/
theorem C1_publish_does_not_read_secrets (w : World) :
    commands (w.since (NodePublishVolume testRequest w).2) =
        [("mount", ["-t", "cifs", "-o", "username=,password=", "//server/export",
          "/tmp/target_path"])] ∧
      commands (w.since (NodePublishVolume testRequest w).2) ≠
        [("mount", ["-t", "cifs", "-o", "username=user1,password=pass1", "//server/export",
          "/tmp/target_path"])] ∧
      (NodePublishVolume testRequest freshWorld).1 = .ok {} := by
  have h := publish_commands testRequest w {} rfl
  have ha : mountArgs testRequest =
      ["-t", "cifs", "-o", "username=,password=", "//server/export", "/tmp/target_path"] := by
    decide
  rw [ha] at h
  refine ⟨h, ?_, publish_ok testRequest freshWorld {} rfl rfl⟩
  rw [h]
  decide

/-- C2, the code at the failing inputs.  For the publish request of the unit tests with
any list of mount flags, `foo=bar` and `vers=1.0,` included, a call creates the mount
command in every world, and when nothing fails it returns the empty success response
and no InvalidArgument error: the source never looks at the mount flags. -/
theorem C2_publish_accepts_every_mount_flag (flags : List String) (w : World) :
    commands (w.since (NodePublishVolume (flagRequest flags) w).2) =
        [("mount", ["-t", "cifs", "-o", "username=,password=", "//server/export",
          "/tmp/target_path"])] ∧
      (NodePublishVolume (flagRequest ["foo=bar"]) freshWorld).1 = .ok {} ∧
      (NodePublishVolume (flagRequest ["vers=1.0,"]) freshWorld).1 = .ok {} := by
  refine ⟨?_, publish_ok _ freshWorld _ rfl rfl, publish_ok _ freshWorld _ rfl rfl⟩
  rw [publish_commands (flagRequest flags) w _ rfl]
  rfl

/-- C3, the code at the failing inputs.  For the publish request of the unit tests with
any list of mount flags, the single flags `vers=1.0`, `uid=1000` and `gid=1000` included,
the option string passed after `-o` is `username=,password=` in every world; with the
credentials also in the volume context it is `username=user1,password=pass1`, with no
`,<flag>` after it.  Neither string contains `vers=1.0`, `uid=1000` or `gid=1000`,
whereas the string of the claim, `username=user1,password=pass1,vers=1.0`, would. -/
theorem C3_publish_drops_mount_flags (flags : List String) (w : World) :
    optionStrings (w.since (NodePublishVolume (flagRequest flags) w).2) =
        ["username=,password="] ∧
      optionStrings (w.since (NodePublishVolume (contextRequest flags) w).2) =
        ["username=user1,password=pass1"] ∧
      (["vers=1.0", "uid=1000", "gid=1000"].map fun flag =>
        (stringsContains "username=,password=" flag,
          stringsContains "username=user1,password=pass1" flag)) =
        [(false, false), (false, false), (false, false)] ∧
      stringsContains "username=user1,password=pass1,vers=1.0" "vers=1.0" = true := by
  refine ⟨?_, ?_, by decide, by decide⟩
  · rw [optionStrings, publish_commands (flagRequest flags) w _ rfl]
    rfl
  · rw [optionStrings, publish_commands (contextRequest flags) w _ rfl]
    rfl

/-- C4, the code at the failing input.  On a fresh server where nothing fails, the
publish request of the unit tests succeeds; a later call for the same target path
`/tmp/target_path` with another share (`//server/other`), or with another mount-flag
list (`vers=1.0`), returns the empty success response and no AlreadyExists error, and
each such call creates one more mount command, in every world. -/
theorem C4_publish_detects_no_conflict (w : World) :
    (NodePublishVolume testRequest freshWorld).1 = .ok {} ∧
      (NodePublishVolume otherShareRequest (NodePublishVolume testRequest freshWorld).2).1 =
        .ok {} ∧
      (NodePublishVolume (flagRequest ["vers=1.0"])
        (NodePublishVolume testRequest freshWorld).2).1 = .ok {} ∧
      commands (w.since (NodePublishVolume otherShareRequest w).2) =
        [("mount", ["-t", "cifs", "-o", "username=,password=", "//server/other",
          "/tmp/target_path"])] ∧
      commands (w.since (NodePublishVolume (flagRequest ["vers=1.0"]) w).2) =
        [("mount", ["-t", "cifs", "-o", "username=,password=", "//server/export",
          "/tmp/target_path"])] := by
  have ho : (NodePublishVolume testRequest freshWorld).2.oracle = okOracle :=
    (publish_extends testRequest freshWorld).1
  refine ⟨publish_ok _ _ _ rfl rfl, publish_ok _ _ _ rfl ho, publish_ok _ _ _ rfl ho, ?_, ?_⟩
  · rw [publish_commands otherShareRequest w _ rfl]
    rfl
  · rw [publish_commands (flagRequest ["vers=1.0"]) w _ rfl]
    rfl

/-- C5, the code at the failing input.  On a fresh server where nothing fails, two calls
in a row with the publish request of the unit tests both return the empty success
response, and together they create two `mount` commands with the same arguments, not
one: the second call mounts again. -/
theorem C5_publish_twice_mounts_twice :
    (NodePublishVolume testRequest freshWorld).1 = .ok {} ∧
      (NodePublishVolume testRequest (NodePublishVolume testRequest freshWorld).2).1 =
        .ok {} ∧
      commands (freshWorld.since
          (NodePublishVolume testRequest (NodePublishVolume testRequest freshWorld).2).2) =
        [("mount", ["-t", "cifs", "-o", "username=,password=", "//server/export",
            "/tmp/target_path"]),
          ("mount", ["-t", "cifs", "-o", "username=,password=", "//server/export",
            "/tmp/target_path"])] := by
  refine ⟨publish_ok _ _ _ rfl rfl,
    publish_ok _ _ _ rfl (publish_extends testRequest freshWorld).1, ?_⟩
  decide

/-- C6: for every publish request with a volume capability, on every server history and
whatever the collaborators do: if a call fails because the `Start` of its mount command
returns an error, or `Start` returns `nil` and `Wait` returns an error, then that call
returns an Internal error and has created the command `mount` with the arguments of the
request; a later call with the same request, in whatever world `w2` the server is by
then, creates the command `mount` again with the same arguments as the first call and
starts it; and when the `Start` and the `Wait` of that second command return `nil`, the
second call waits on the command and returns the empty success response. -/
theorem C6_publish_retries_after_mount_failure (r : NodePublishVolumeRequest) (w w2 : World)
    (c : VolumeCapability) (e : String) (h : r.VolumeCapability = some c)
    (hfail : publishStartErr r w = some e ∨
      (publishStartErr r w = none ∧ publishWaitErr r w = some e)) :
    (NodePublishVolume r w).1 = .error ⟨.Internal, e⟩ ∧
      commands (w.since (NodePublishVolume r w).2) = [("mount", mountArgs r)] ∧
      commands (w2.since (NodePublishVolume r w2).2) =
        commands (w.since (NodePublishVolume r w).2) ∧
      (NodePublishVolume r w2).2.trace[publishHandle r w2]? =
        some ⟨.Command "mount" (mountArgs r), none⟩ ∧
      ⟨.Start (publishHandle r w2), publishStartErr r w2⟩ ∈
        w2.since (NodePublishVolume r w2).2 ∧
      (publishStartErr r w2 = none → publishWaitErr r w2 = none →
        (NodePublishVolume r w2).1 = .ok {} ∧
          w2.since (NodePublishVolume r w2).2 =
            publishPrefix r w2 ++ publishStarted r w2 ++
              [⟨.Wait (publishHandle r w2), none⟩,
                ⟨.fmtPrintln ("finished mount to " ++ r.GetVolumeContext.index "share"),
                  none⟩]) := by
  have hb := publish_behaviour r w c h
  have hb2 := publish_behaviour r w2 c h
  have hstart : ⟨.Start (publishHandle r w2), publishStartErr r w2⟩ ∈
      w2.since (NodePublishVolume r w2).2 := by
    cases hs : publishStartErr r w2 with
    | some e2 =>
      rw [since_append w2 _ _ (hb2.1 e2 hs).2]
      simp
    | none =>
      cases hw : publishWaitErr r w2 with
      | some e2 =>
        rw [since_append w2 _ _ (hb2.2.1 e2 hs hw).2]
        simp [publishStarted]
      | none =>
        rw [since_append w2 _ _ (hb2.2.2 hs hw).2]
        simp [publishStarted]
  refine ⟨?_, publish_commands r w c h, ?_, publish_handle r w2 c h _ _ hstart, hstart, ?_⟩
  · rcases hfail with hs | ⟨hs, hw⟩
    · exact (hb.1 e hs).1
    · exact (hb.2.1 e hs hw).1
  · rw [publish_commands r w c h, publish_commands r w2 c h]
  · intro hs hw
    exact ⟨(hb2.2.2 hs hw).1, since_append w2 _ _ (hb2.2.2 hs hw).2⟩

/-- Witness of C6: the request of the unit tests on a server with an earlier log line.
When the first `Start` fails with `cmd-failed`, and likewise when the first `Wait` does,
the first call returns that Internal error, and the second call, made right after it,
creates the mount command again and returns the empty success response. -/
theorem C6_publish_retries_after_mount_failure_witness :
    ((NodePublishVolume testRequest (busyWorld failFirstStart)).1 =
          .error ⟨.Internal, "cmd-failed"⟩ ∧
        commands ((NodePublishVolume testRequest (busyWorld failFirstStart)).2.since
            (NodePublishVolume testRequest
              (NodePublishVolume testRequest (busyWorld failFirstStart)).2).2) =
          [("mount", mountArgs testRequest)] ∧
        (NodePublishVolume testRequest
          (NodePublishVolume testRequest (busyWorld failFirstStart)).2).1 = .ok {}) ∧
      ((NodePublishVolume testRequest (busyWorld failFirstWait)).1 =
          .error ⟨.Internal, "cmd-failed"⟩ ∧
        (NodePublishVolume testRequest
          (NodePublishVolume testRequest (busyWorld failFirstWait)).2).1 = .ok {}) :=
  have h1 := C6_publish_retries_after_mount_failure testRequest (busyWorld failFirstStart)
    (NodePublishVolume testRequest (busyWorld failFirstStart)).2 {} "cmd-failed" rfl
    (Or.inl (by decide))
  have h2 := C6_publish_retries_after_mount_failure testRequest (busyWorld failFirstWait)
    (NodePublishVolume testRequest (busyWorld failFirstWait)).2 {} "cmd-failed" rfl
    (Or.inr ⟨by decide, by decide⟩)
  ⟨⟨h1.1, h1.2.2.1.trans h1.2.1, (h1.2.2.2.2.2 (by decide) (by decide)).1⟩,
    h2.1, (h2.2.2.2.2.2 (by decide) (by decide)).1⟩

/-- C7, the code under every interleaving.  For every publish request with a volume
capability and every `n`, when `n` calls with that request run concurrently on one
server, under any schedule that lets all of them return and whatever the collaborators
answer, the calls create `n` mount commands, one each and all with the arguments of the
request, and not one command in all; when no collaborator call fails, all `n` calls
return the empty success response. -/
theorem C7_concurrent_publish_mounts_once_per_call (r : NodePublishVolumeRequest)
    (c : VolumeCapability) (n : Nat) (sched : List Nat) (w : World)
    (h : r.VolumeCapability = some c)
    (hdone : ∀ p ∈ (runSchedule sched (List.replicate n (NodePublishVolumeProg r)) w).1,
      p.result?.isSome) :
    commands (w.since (runSchedule sched (List.replicate n (NodePublishVolumeProg r)) w).2) =
        List.replicate n ("mount", mountArgs r) ∧
      (w.oracle = okOracle →
        (runSchedule sched (List.replicate n (NodePublishVolumeProg r)) w).1.map
            Prog.result? =
          List.replicate n (some (.ok {}))) := by
  have hpend : ∀ p ∈ List.replicate n (NodePublishVolumeProg r),
      ∃ m, Pending ("mount", mountArgs r) m p := by
    intro p hp
    rw [List.eq_of_mem_replicate hp]
    exact ⟨1, pending_NodePublishVolumeProg r c h⟩
  obtain ⟨_, hlen, new, ht, _, hc⟩ :=
    runSchedule_commands ("mount", mountArgs r) sched _ w hpend
  have hzero : ((runSchedule sched (List.replicate n (NodePublishVolumeProg r)) w).1.map
      Prog.pending).sum = 0 := by
    apply List.sum_eq_zero
    intro x hx
    obtain ⟨p, hp, rfl⟩ := List.mem_map.1 hx
    exact pending_of_result p (hdone p hp)
  have hsum : ((List.replicate n (NodePublishVolumeProg r)).map Prog.pending).sum = n := by
    rw [List.map_replicate, (pending_NodePublishVolumeProg r c h).count_eq]
    simp
  constructor
  · rw [since_append w _ new ht, hc, hzero, hsum]
    rfl
  · intro ho
    have hs := runSchedule_succeeds sched (List.replicate n (NodePublishVolumeProg r)) w ho
      (fun p hp => by
        rw [List.eq_of_mem_replicate hp]
        exact succeeds_NodePublishVolumeProg r c h)
    rw [List.eq_replicate_iff]
    refine ⟨by simpa using hlen, ?_⟩
    intro b hb
    obtain ⟨p, hp, rfl⟩ := List.mem_map.1 hb
    exact (hs p hp).result_ok (hdone p hp)

/-- Witness of C7: two concurrent calls with the request of the unit tests on a fresh
server where nothing fails, taking turns call by call, both return the empty success
response and create two mount commands. -/
theorem C7_concurrent_publish_mounts_once_per_call_witness :
    commands (freshWorld.since
        (runSchedule alternating (List.replicate 2 (NodePublishVolumeProg testRequest))
          freshWorld).2) =
      [("mount", ["-t", "cifs", "-o", "username=,password=", "//server/export",
          "/tmp/target_path"]),
        ("mount", ["-t", "cifs", "-o", "username=,password=", "//server/export",
          "/tmp/target_path"])] ∧
      (runSchedule alternating (List.replicate 2 (NodePublishVolumeProg testRequest))
          freshWorld).1.map Prog.result? = [some (.ok {}), some (.ok {})] :=
  have h := C7_concurrent_publish_mounts_once_per_call testRequest {} 2 alternating
    freshWorld rfl (by decide)
  ⟨h.1, h.2 rfl⟩

/-- C8: for every publish request whose volume capability is absent, on every server
history and whatever the collaborators would do, `NodePublishVolume` returns no response
and the InvalidArgument error with description `Error: a required property
[VolumeCapability] was not provided`, and it calls no collaborator: the history is
unchanged, so no directory and no command is created. -/
theorem C8_publish_without_capability (r : NodePublishVolumeRequest) (w : World)
    (h : r.VolumeCapability = none) :
    (NodePublishVolume r w).1 =
        .error ⟨.InvalidArgument,
          "Error: a required property [VolumeCapability] was not provided"⟩ ∧
      (NodePublishVolume r w).2.trace = w.trace ∧
      w.since (NodePublishVolume r w).2 = [] ∧
      Status.Error ⟨.InvalidArgument, errorFmt "VolumeCapability"⟩ =
        "rpc error: code = InvalidArgument desc = " ++
          "Error: a required property [VolumeCapability] was not provided" := by
  unfold NodePublishVolume World.since
  rw [h]
  refine ⟨?_, rfl, by simp, by decide⟩
  simp only [errorFmt]
  rfl

/-- Witness of C8: the request of the unit tests with its capability removed. -/
theorem C8_publish_without_capability_witness :
    (NodePublishVolume { testRequest with VolumeCapability := none } freshWorld).1 =
        .error ⟨.InvalidArgument,
          "Error: a required property [VolumeCapability] was not provided"⟩ ∧
      (NodePublishVolume { testRequest with VolumeCapability := none } freshWorld).2.trace =
        [] :=
  have h := C8_publish_without_capability { testRequest with VolumeCapability := none }
    freshWorld rfl
  ⟨h.1, h.2.1⟩

/-- C9: for every publish request with a volume capability and every error message `e`,
on every server history: if the `Start` of the mount command returns `e`, or it returns
`nil` and the `Wait` of the command returns `e`, then `NodePublishVolume` returns no
response and the Internal error with description `e`, whose text is `rpc error: code =
Internal desc = <e>`; the handle started is the mount command this call created; after a
`Start` failure the call ends with that `Start`, so no `Wait` is called, and after a
`Wait` failure it ends with that `Wait`. -/
theorem C9_publish_mount_failure_is_internal (r : NodePublishVolumeRequest) (w : World)
    (c : VolumeCapability) (e : String) (h : r.VolumeCapability = some c)
    (hfail : publishStartErr r w = some e ∨
      (publishStartErr r w = none ∧ publishWaitErr r w = some e)) :
    (NodePublishVolume r w).1 = .error ⟨.Internal, e⟩ ∧
      Status.Error ⟨.Internal, e⟩ = "rpc error: code = Internal desc = " ++ e ∧
      (NodePublishVolume r w).2.trace[publishHandle r w]? =
        some ⟨.Command "mount" (mountArgs r), none⟩ ∧
      (publishStartErr r w = some e →
        w.since (NodePublishVolume r w).2 =
            publishPrefix r w ++ [⟨.Start (publishHandle r w), some e⟩] ∧
          ∀ k2 e2, ⟨.Wait k2, e2⟩ ∉ w.since (NodePublishVolume r w).2) ∧
      (publishStartErr r w = none →
        w.since (NodePublishVolume r w).2 =
          publishPrefix r w ++ publishStarted r w ++
            [⟨.Wait (publishHandle r w), some e⟩]) := by
  have hb := publish_behaviour r w c h
  have hstartmem : publishStartErr r w = some e →
      ⟨.Start (publishHandle r w), some e⟩ ∈ w.since (NodePublishVolume r w).2 := by
    intro hs
    rw [since_append w _ _ (hb.1 e hs).2]
    simp
  refine ⟨?_, ?_, ?_, ?_, ?_⟩
  · rcases hfail with hs | ⟨hs, hw⟩
    · exact (hb.1 e hs).1
    · exact (hb.2.1 e hs hw).1
  · simp [Status.Error, Code.String]
  · rcases hfail with hs | ⟨hs, hw⟩
    · exact publish_handle r w c h _ _ (hstartmem hs)
    · refine publish_handle r w c h _ none ?_
      rw [since_append w _ _ (hb.2.1 e hs hw).2]
      simp [publishStarted]
  · intro hs
    exact ⟨since_append w _ _ (hb.1 e hs).2,
      ((publish_result r w c h _).1 e (hstartmem hs)).2⟩
  · intro hs
    rcases hfail with hs2 | ⟨_, hw⟩
    · rw [hs] at hs2
      cases hs2
    · exact since_append w _ _ (hb.2.1 e hs hw).2

/-- Witness of C9: the request of the unit tests on a server with an earlier log line,
once with a `Start` that fails with `cmd-failed` and once with a `Wait` that does. -/
theorem C9_publish_mount_failure_is_internal_witness :
    ((NodePublishVolume testRequest (busyWorld failFirstStart)).1 =
          .error ⟨.Internal, "cmd-failed"⟩ ∧
        Status.Error ⟨.Internal, "cmd-failed"⟩ =
          "rpc error: code = Internal desc = cmd-failed") ∧
      (NodePublishVolume testRequest (busyWorld failWait)).1 =
        .error ⟨.Internal, "cmd-failed"⟩ :=
  have h1 := C9_publish_mount_failure_is_internal testRequest (busyWorld failFirstStart) {}
    "cmd-failed" rfl (Or.inl (by decide))
  have h2 := C9_publish_mount_failure_is_internal testRequest (busyWorld failWait) {}
    "cmd-failed" rfl (Or.inr ⟨by decide, by decide⟩)
  ⟨⟨h1.1, h1.2.1⟩, h2.1⟩

/-- C10, the code at the failing input.  For the unpublish request of the unit tests
(target path `/tmp/target_path`) a call creates, in every world, exactly one command,
`umount /tmp/target_path`: its argument list is the target path alone, without the `-l`
of the claim. -/
theorem C10_unpublish_umount_has_no_lazy_flag (w : World) :
    commands (w.since (NodeUnpublishVolume testUnpublishRequest w).2) =
        [("umount", ["/tmp/target_path"])] ∧
      commands (w.since (NodeUnpublishVolume testUnpublishRequest w).2) ≠
        [("umount", ["-l", "/tmp/target_path"])] ∧
      (NodeUnpublishVolume testUnpublishRequest freshWorld).1 = .ok {} ∧
      (NodeUnpublishVolume testUnpublishRequest freshWorld).2.trace.map (fun ev => ev.call) =
        [.logPrint "about to remove dir", .Command "umount" ["/tmp/target_path"], .Start 1,
          .logPrint "started umount", .Wait 1, .logPrint "finished umount",
          .Remove "/tmp/target_path", .logPrint "removed dir"] := by
  have h := unpublish_commands testUnpublishRequest w (by decide)
  refine ⟨h, ?_, rfl, by decide⟩
  rw [h]
  decide

/-- C11: for every unpublish request whose target path is the empty string, on every
server history and whatever the collaborators would do, `NodeUnpublishVolume` returns no
response and the InvalidArgument error with description `Error: a required property
[TargetPath] was not provided`, and it calls no collaborator: the history is unchanged,
so no command is created and `Remove` is not called. -/
theorem C11_unpublish_without_target_path (r : NodeUnpublishVolumeRequest) (w : World)
    (h : r.TargetPath = "") :
    (NodeUnpublishVolume r w).1 =
        .error ⟨.InvalidArgument,
          "Error: a required property [TargetPath] was not provided"⟩ ∧
      (NodeUnpublishVolume r w).2.trace = w.trace ∧
      w.since (NodeUnpublishVolume r w).2 = [] ∧
      commands (w.since (NodeUnpublishVolume r w).2) = [] ∧
      (∀ p e, ⟨.Remove p, e⟩ ∉ w.since (NodeUnpublishVolume r w).2) ∧
      Status.Error ⟨.InvalidArgument, errorFmt "TargetPath"⟩ =
        "rpc error: code = InvalidArgument desc = " ++
          "Error: a required property [TargetPath] was not provided" := by
  have hs : w.since (NodeUnpublishVolume r w).2 = [] := by
    unfold NodeUnpublishVolume World.since
    rw [if_pos h]
    simp
  refine ⟨?_, ?_, hs, ?_, ?_, by decide⟩
  · unfold NodeUnpublishVolume
    rw [if_pos h]
    rfl
  · unfold NodeUnpublishVolume
    rw [if_pos h]
  · rw [hs]
    rfl
  · intro p e
    rw [hs]
    exact List.not_mem_nil _

/-- Witness of C11: the unpublish request of the unit tests with an empty target path
(`node_server_test.go`, `when target path is not provided`). -/
theorem C11_unpublish_without_target_path_witness :
    (NodeUnpublishVolume { TargetPath := "" } freshWorld).1 =
        .error ⟨.InvalidArgument,
          "Error: a required property [TargetPath] was not provided"⟩ ∧
      (NodeUnpublishVolume { TargetPath := "" } freshWorld).2.trace = [] :=
  have h := C11_unpublish_without_target_path { TargetPath := "" } freshWorld rfl
  ⟨h.1, h.2.1⟩

/-- C12: for every unpublish request with a non-empty target path and every error message
`e`, on every server history: if the `Start` of the unmount command returns `e`, or it
returns `nil` and the `Wait` of the command returns `e`, or both return `nil` and
`Remove` of the target path returns `e`, then `NodeUnpublishVolume` returns no response
and the Internal error with description `e`, whose text is `rpc error: code = Internal
desc = <e>`; the handle started is the `umount` command this call created; the call ends
with the call that failed, so after a `Start` failure no `Wait` is called, and after a
`Start` or a `Wait` failure no `Remove` is called. -/
theorem C12_unpublish_failure_is_internal (r : NodeUnpublishVolumeRequest) (w : World)
    (e : String) (h : r.TargetPath ≠ "")
    (hfail : unpublishStartErr r w = some e ∨
      (unpublishStartErr r w = none ∧ unpublishWaitErr r w = some e) ∨
      (unpublishStartErr r w = none ∧ unpublishWaitErr r w = none ∧
        unpublishRemoveErr r w = some e)) :
    (NodeUnpublishVolume r w).1 = .error ⟨.Internal, e⟩ ∧
      Status.Error ⟨.Internal, e⟩ = "rpc error: code = Internal desc = " ++ e ∧
      (NodeUnpublishVolume r w).2.trace[unpublishHandle w]? =
        some ⟨.Command "umount" [r.TargetPath], none⟩ ∧
      (unpublishStartErr r w = some e →
        w.since (NodeUnpublishVolume r w).2 =
            unpublishPrefix r ++ [⟨.Start (unpublishHandle w), some e⟩] ∧
          (∀ k2 e2, ⟨.Wait k2, e2⟩ ∉ w.since (NodeUnpublishVolume r w).2) ∧
          ∀ p e2, ⟨.Remove p, e2⟩ ∉ w.since (NodeUnpublishVolume r w).2) ∧
      (unpublishStartErr r w = none → unpublishWaitErr r w = some e →
        w.since (NodeUnpublishVolume r w).2 =
            unpublishPrefix r ++ unpublishStarted w ++
              [⟨.Wait (unpublishHandle w), some e⟩] ∧
          ∀ p e2, ⟨.Remove p, e2⟩ ∉ w.since (NodeUnpublishVolume r w).2) ∧
      (unpublishStartErr r w = none → unpublishWaitErr r w = none →
        w.since (NodeUnpublishVolume r w).2 =
          unpublishPrefix r ++ unpublishStarted w ++ unpublishWaited w ++
            [⟨.Remove r.TargetPath, some e⟩]) := by
  have hb := unpublish_behaviour r w h
  have hstartmem : ∀ e2, unpublishStartErr r w = some e2 →
      ⟨.Start (unpublishHandle w), some e2⟩ ∈ w.since (NodeUnpublishVolume r w).2 := by
    intro e2 hs
    rw [since_append w _ _ (hb.1 e2 hs).2]
    simp
  have hwaitmem : ∀ e2, unpublishStartErr r w = none → unpublishWaitErr r w = some e2 →
      ⟨.Wait (unpublishHandle w), some e2⟩ ∈ w.since (NodeUnpublishVolume r w).2 := by
    intro e2 hs hw
    rw [since_append w _ _ (hb.2.1 e2 hs hw).2]
    simp
  refine ⟨?_, ?_, ?_, ?_, ?_, ?_⟩
  · rcases hfail with hs | ⟨hs, hw⟩ | ⟨hs, hw, hrm⟩
    · exact (hb.1 e hs).1
    · exact (hb.2.1 e hs hw).1
    · exact (hb.2.2.1 e hs hw hrm).1
  · simp [Status.Error, Code.String]
  · rcases hfail with hs | ⟨hs, hw⟩ | ⟨hs, hw, hrm⟩
    · exact unpublish_handle r w h _ _ (hstartmem e hs)
    · refine unpublish_handle r w h _ none ?_
      rw [since_append w _ _ (hb.2.1 e hs hw).2]
      simp [unpublishStarted]
    · refine unpublish_handle r w h _ none ?_
      rw [since_append w _ _ (hb.2.2.1 e hs hw hrm).2]
      simp [unpublishStarted]
  · intro hs
    have hr := (unpublish_result r w h _ e).1 (hstartmem e hs)
    exact ⟨since_append w _ _ (hb.1 e hs).2, hr.2.1, hr.2.2⟩
  · intro hs hw
    exact ⟨since_append w _ _ (hb.2.1 e hs hw).2,
      ((unpublish_result r w h _ e).2.1 (hwaitmem e hs hw)).2⟩
  · intro hs hw
    rcases hfail with hs2 | ⟨_, hw2⟩ | ⟨_, _, hrm⟩
    · rw [hs] at hs2
      cases hs2
    · rw [hw] at hw2
      cases hw2
    · exact since_append w _ _ (hb.2.2.1 e hs hw hrm).2

/-- Witness of C12: the unpublish request of the unit tests on a server with an earlier
log line, with a `Start` that fails with `cmd-failed`, with a `Wait` that fails with
`cmd-failed`, and with a `Remove` that fails with `remove-failed`. -/
theorem C12_unpublish_failure_is_internal_witness :
    (NodeUnpublishVolume testUnpublishRequest (busyWorld failFirstStart)).1 =
        .error ⟨.Internal, "cmd-failed"⟩ ∧
      (NodeUnpublishVolume testUnpublishRequest (busyWorld failWait)).1 =
        .error ⟨.Internal, "cmd-failed"⟩ ∧
      ((NodeUnpublishVolume testUnpublishRequest (busyWorld failRemove)).1 =
          .error ⟨.Internal, "remove-failed"⟩ ∧
        Status.Error ⟨.Internal, "remove-failed"⟩ =
          "rpc error: code = Internal desc = remove-failed") :=
  have h1 := C12_unpublish_failure_is_internal testUnpublishRequest
    (busyWorld failFirstStart) "cmd-failed" (by decide) (Or.inl (by decide))
  have h2 := C12_unpublish_failure_is_internal testUnpublishRequest (busyWorld failWait)
    "cmd-failed" (by decide) (Or.inr (Or.inl ⟨by decide, by decide⟩))
  have h3 := C12_unpublish_failure_is_internal testUnpublishRequest (busyWorld failRemove)
    "remove-failed" (by decide) (Or.inr (Or.inr ⟨by decide, by decide, by decide⟩))
  ⟨h1.1, h2.1, h3.1, h3.2.1⟩

end SmbCsiDriver
